import Mathlib

/-!
Shallow embedding of the orbital / solar-irradiance library (kepler.py and
solar.py) over the real numbers, together with theorems settling the frozen
claims about it.  Python floats are modelled as real numbers; `x / 0 = 0`
in Lean marks exactly the points where the Python code would raise a
ZeroDivisionError (noted at each definition where it matters).
-/

open Real

noncomputable section

/-! ## kepler.py -/

/-- Newton step `x1 = x0 - f(x0)/df(x0)` from the loop body of
`newton_raphson` in kepler.py. -/
def nrStep (f df : ℝ → ℝ) (x0 : ℝ) : ℝ := x0 - f x0 / df x0

/-- The `for i in range(N)` loop of `newton_raphson` (kepler.py lines 41-48):
take a Newton step; return it if it moved less than `epsilon`, otherwise
continue with the remaining fuel; once the range is exhausted return the
last computed value. -/
def nrLoop (f df : ℝ → ℝ) (epsilon : ℝ) : ℕ → ℝ → ℝ
  | 0, x0 => x0
  | Nat.succ n, x0 =>
      let x1 := nrStep f df x0
      if |x1 - x0| < epsilon then x1 else nrLoop f df epsilon n x1

/-- `newton_raphson(x, f, df, epsilon, N=50)` from kepler.py. -/
def newton_raphson (x : ℝ) (f df : ℝ → ℝ) (epsilon : ℝ) (N : ℕ := 50) : ℝ :=
  nrLoop f df epsilon N x

/-- The sequence of Newton iterates `x_0 = x`, `x_{k+1} = x_k - f(x_k)/df(x_k)`
described by the specification of `newton_raphson`. -/
def nrSeq (f df : ℝ → ℝ) (x : ℝ) : ℕ → ℝ
  | 0 => x
  | Nat.succ k => nrStep f df (nrSeq f df x k)

/-- Python `math.copysign(x, y)`: the magnitude of `x` with the sign of `y`.
The float `+0.0` counts as positive, so a zero second argument yields `|x|`. -/
def copysign (x y : ℝ) : ℝ := if 0 ≤ y then |x| else -|x|

/-- The starting value `E = M + math.copysign(k*eccentricity, math.sin(M))`
computed by `get_eccentric_anomaly` (kepler.py line 104). -/
def eccSeed (M eccentricity k : ℝ) : ℝ :=
  M + copysign (k * eccentricity) (Real.sin M)

/-- `get_eccentric_anomaly(M, eccentricity, tolerance=1.0e-9, k=0.85)` from
kepler.py: solve `E - e*sin E = M` by Newton-Raphson from the seed
`eccSeed`, with convergence criterion `2*tolerance*E`. -/
def get_eccentric_anomaly (M eccentricity : ℝ) (tolerance : ℝ := 1.0e-9)
    (k : ℝ := 0.85) : ℝ :=
  newton_raphson (eccSeed M eccentricity k)
    (fun x => x - eccentricity * Real.sin x - M)
    (fun x => 1 - eccentricity * Real.cos x)
    (2 * tolerance * eccSeed M eccentricity k)

/-- The first `while` loop of `clip_angle` (kepler.py lines 64-65):
`while angle > max: angle -= length`.  The extra guard `0 < length` makes
the recursion well founded; when `length ≤ 0` the Python loop never
terminates, and this model then returns `angle` unchanged. -/
def clipDown (max length angle : ℝ) : ℝ :=
  if h : 0 < length ∧ max < angle then clipDown max length (angle - length)
  else angle
termination_by Nat.ceil ((angle - max) / length)
decreasing_by
  have hpos : (0:ℝ) < (angle - max) / length :=
    div_pos (by linarith [h.2]) h.1
  have hL : length ≠ 0 := ne_of_gt h.1
  have hrw : (angle - length - max) / length = (angle - max) / length - 1 := by
    rw [show angle - length - max = angle - max - length by ring, sub_div, div_self hL]
  rw [hrw]
  rcases le_or_lt ((angle - max) / length) 1 with h1 | h1
  · rw [Nat.ceil_eq_zero.mpr (by linarith : (angle - max) / length - 1 ≤ 0)]
    exact Nat.ceil_pos.mpr hpos
  · have h2 := Nat.ceil_add_one (by linarith : (0:ℝ) ≤ (angle - max) / length - 1)
    rw [show (angle - max) / length - 1 + 1 = (angle - max) / length by ring] at h2
    rw [h2]
    exact Nat.lt_succ_self _

/-- The second `while` loop of `clip_angle` (kepler.py lines 66-67):
`while angle < min: angle += length`, guarded like `clipDown`. -/
def clipUp (min length angle : ℝ) : ℝ :=
  if h : 0 < length ∧ angle < min then clipUp min length (angle + length)
  else angle
termination_by Nat.ceil ((min - angle) / length)
decreasing_by
  have hpos : (0:ℝ) < (min - angle) / length :=
    div_pos (by linarith [h.2]) h.1
  have hL : length ≠ 0 := ne_of_gt h.1
  have hrw : (min - (angle + length)) / length = (min - angle) / length - 1 := by
    rw [show min - (angle + length) = min - angle - length by ring, sub_div, div_self hL]
  rw [hrw]
  rcases le_or_lt ((min - angle) / length) 1 with h1 | h1
  · rw [Nat.ceil_eq_zero.mpr (by linarith : (min - angle) / length - 1 ≤ 0)]
    exact Nat.ceil_pos.mpr hpos
  · have h2 := Nat.ceil_add_one (by linarith : (0:ℝ) ≤ (min - angle) / length - 1)
    rw [show (min - angle) / length - 1 + 1 = (min - angle) / length by ring] at h2
    rw [h2]
    exact Nat.lt_succ_self _

/-- `clip_angle(angle, min=0, max=2*math.pi)` from kepler.py: run the two
`while` loops in order with `length = max - min`. -/
def clip_angle (angle : ℝ) (min : ℝ := 0) (max : ℝ := 2 * π) : ℝ :=
  clipUp min (max - min) (clipDown max (max - min) angle)

/-- Number of subtractions performed by the first `while` loop of
`clip_angle`. -/
def clipDownSteps (max length angle : ℝ) : ℕ :=
  if h : 0 < length ∧ max < angle then clipDownSteps max length (angle - length) + 1
  else 0
termination_by Nat.ceil ((angle - max) / length)
decreasing_by
  have hpos : (0:ℝ) < (angle - max) / length :=
    div_pos (by linarith [h.2]) h.1
  have hL : length ≠ 0 := ne_of_gt h.1
  have hrw : (angle - length - max) / length = (angle - max) / length - 1 := by
    rw [show angle - length - max = angle - max - length by ring, sub_div, div_self hL]
  rw [hrw]
  rcases le_or_lt ((angle - max) / length) 1 with h1 | h1
  · rw [Nat.ceil_eq_zero.mpr (by linarith : (angle - max) / length - 1 ≤ 0)]
    exact Nat.ceil_pos.mpr hpos
  · have h2 := Nat.ceil_add_one (by linarith : (0:ℝ) ≤ (angle - max) / length - 1)
    rw [show (angle - max) / length - 1 + 1 = (angle - max) / length by ring] at h2
    rw [h2]
    exact Nat.lt_succ_self _

/-- Number of additions performed by the second `while` loop of
`clip_angle`. -/
def clipUpSteps (min length angle : ℝ) : ℕ :=
  if h : 0 < length ∧ angle < min then clipUpSteps min length (angle + length) + 1
  else 0
termination_by Nat.ceil ((min - angle) / length)
decreasing_by
  have hpos : (0:ℝ) < (min - angle) / length :=
    div_pos (by linarith [h.2]) h.1
  have hL : length ≠ 0 := ne_of_gt h.1
  have hrw : (min - (angle + length)) / length = (min - angle) / length - 1 := by
    rw [show min - (angle + length) = min - angle - length by ring, sub_div, div_self hL]
  rw [hrw]
  rcases le_or_lt ((min - angle) / length) 1 with h1 | h1
  · rw [Nat.ceil_eq_zero.mpr (by linarith : (min - angle) / length - 1 ≤ 0)]
    exact Nat.ceil_pos.mpr hpos
  · have h2 := Nat.ceil_add_one (by linarith : (0:ℝ) ≤ (min - angle) / length - 1)
    rw [show (min - angle) / length - 1 + 1 = (min - angle) / length by ring] at h2
    rw [h2]
    exact Nat.lt_succ_self _

/-- Total number of loop iterations performed by `clip_angle`. -/
def clipSteps (angle min max : ℝ) : ℕ :=
  clipDownSteps max (max - min) angle +
    clipUpSteps min (max - min) (clipDown max (max - min) angle)

/-- `get_true_anomaly(E, e)` from kepler.py: half-angle tangent formula on
the upper hemisphere `E < pi`, reflection about `pi` otherwise. -/
def get_true_anomaly (E e : ℝ) : ℝ :=
  if E < π then 2 * Real.arctan (Real.sqrt ((1 + e) / (1 - e)) * Real.tan (0.5 * E))
  else 2 * π - 2 * Real.arctan (Real.sqrt ((1 + e) / (1 - e)) * Real.tan (0.5 * (2 * π - E)))

/-! ## solar.py -/

/-- Python `math.radians(x) = x * pi / 180`. -/
def radians (x : ℝ) : ℝ := x * π / 180

/-- `sin_declination(obliquity, true_longitude)` from solar.py. -/
def sin_declination (obliquity true_longitude : ℝ) : ℝ :=
  Real.sin obliquity * Real.sin true_longitude

/-- `hour_angle(T)` from solar.py. -/
def hour_angle (T : ℝ) : ℝ := radians (15 * T - 180)

/-- `cos_zenith_angle(obliquity, true_longitude, latitude, T)` from solar.py;
`math.sqrt` raises for a negative argument where `Real.sqrt` returns 0. -/
def cos_zenith_angle (obliquity true_longitude latitude T : ℝ) : ℝ :=
  let sin_decl := sin_declination obliquity true_longitude
  let cos_decl := Real.sqrt (1 - sin_decl * sin_decl)
  Real.sin latitude * sin_decl + Real.cos latitude * cos_decl * Real.cos (hour_angle T)

/-- The planet capability consumed by the `Solar` class: an obliquity and an
`instantaneous_distance(true_longitude)` function. -/
structure Planet where
  obliquity : ℝ
  instantaneous_distance : ℝ → ℝ

/-- The `Solar` class of solar.py: a planet and a solar constant `S`. -/
structure Solar where
  planet : Planet
  S : ℝ := 1371

/-- `Solar.beam_irradience(r) = S / (r*r)`. -/
def Solar.beam_irradience (s : Solar) (r : ℝ) : ℝ := s.S / (r * r)

/-- `Solar.surface_irradience(true_longitude, latitude, T)` from solar.py. -/
def Solar.surface_irradience (s : Solar) (true_longitude latitude T : ℝ) : ℝ :=
  max 0 (cos_zenith_angle s.planet.obliquity true_longitude latitude T *
    s.beam_irradience (s.planet.instantaneous_distance true_longitude))

/-- The local value `prod = tan_declination * tan(latitude)` computed inside
`Solar.hour_angle_sunrise_sunset`, with
`tan_declination = sin_decl / sqrt(1 - sin_decl*sin_decl)`. -/
def sunriseProd (obliquity true_longitude latitude : ℝ) : ℝ :=
  let sin_decl := sin_declination obliquity true_longitude
  let tan_declination := sin_decl / Real.sqrt (1 - sin_decl * sin_decl)
  tan_declination * Real.tan latitude

/-- `Solar.hour_angle_sunrise_sunset(true_longitude, latitude, sunset=True)`
from solar.py.  The Python body falls through two disjoint nested `if`
blocks (`latitude > 0` and `latitude < 0` cannot both hold) to `return 0`;
that control flow is flattened here into a chain of conditionals with
conjunctive guards. -/
def Solar.hour_angle_sunrise_sunset (s : Solar) (true_longitude latitude : ℝ)
    (sunset : Bool := true) : ℝ :=
  let prod := sunriseProd s.planet.obliquity true_longitude latitude
  if |prod| < 1 then Real.arccos (-prod) * (if sunset then 1 else -1)
  else if 0 < latitude ∧ 1 < prod ∧ 0 < true_longitude ∧ true_longitude < π then π
  else if latitude < 0 ∧ 1 < prod ∧ π < true_longitude ∧ true_longitude < 2 * π then π
  else 0

/-- The quantity `tan(declination) * tan(latitude)` as the specification
words it, with the declination recovered as `arcsin(sin_declination)`;
compared against the code value `sunriseProd` in the theorems below. -/
def declProd (obliquity true_longitude latitude : ℝ) : ℝ :=
  Real.tan (Real.arcsin (sin_declination obliquity true_longitude)) * Real.tan latitude

/-- A concrete planet used to instantiate theorems: zero obliquity, unit
distance. -/
def testPlanet : Planet := ⟨0, fun _ => 1⟩

/-- A concrete `Solar` model over `testPlanet`. -/
def testSolar : Solar := ⟨testPlanet, 1371⟩

/-- A concrete planet whose obliquity `pi/2` makes the polar-day condition
reachable. -/
def polarPlanet : Planet := ⟨π / 2, fun _ => 1⟩

/-- A concrete `Solar` model over `polarPlanet`. -/
def polarSolar : Solar := ⟨polarPlanet, 1371⟩

end

/-! ## Theorems for the root-finder (claim C2 groundwork) -/

theorem nrSeq_shift (f df : ℝ → ℝ) (x : ℝ) (k : ℕ) :
    nrSeq f df x (k + 1) = nrSeq f df (nrStep f df x) k := by
  induction k with
  | zero => rfl
  | succ k ih => simpa [nrSeq] using congrArg (nrStep f df) ih

/-- Unfolding equation for one pass of the loop. -/
theorem nrLoop_succ (f df : ℝ → ℝ) (eps : ℝ) (N : ℕ) (x : ℝ) :
    nrLoop f df eps (N + 1) x =
      if |nrStep f df x - x| < eps then nrStep f df x
      else nrLoop f df eps N (nrStep f df x) := rfl

/-- Core fact relating the fuelled loop to the iterate sequence. -/
theorem nrLoop_spec (f df : ℝ → ℝ) (eps : ℝ) (N : ℕ) (x : ℝ) :
    ((∀ k, k < N → ¬ |nrSeq f df x (k + 1) - nrSeq f df x k| < eps) →
        nrLoop f df eps N x = nrSeq f df x N) ∧
      (∀ k0, k0 < N → |nrSeq f df x (k0 + 1) - nrSeq f df x k0| < eps →
        (∀ j, j < k0 → ¬ |nrSeq f df x (j + 1) - nrSeq f df x j| < eps) →
        nrLoop f df eps N x = nrSeq f df x (k0 + 1)) := by
  induction N generalizing x with
  | zero =>
      exact ⟨fun _ => rfl, fun k0 hk0 => absurd hk0 (Nat.not_lt_zero _)⟩
  | succ N ih =>
      have h11 : nrSeq f df x 1 = nrStep f df x := rfl
      have hd0 : nrSeq f df x 1 - nrSeq f df x 0 = nrStep f df x - x := rfl
      by_cases hc : |nrStep f df x - x| < eps
      · constructor
        · intro hall
          have := hall 0 (Nat.succ_pos N)
          rw [hd0] at this
          exact absurd hc this
        · intro k0 hk0 hconv hmin
          rcases Nat.eq_zero_or_pos k0 with h0 | h0
          · subst h0
            rw [nrLoop_succ, if_pos hc]
            exact h11.symm
          · have := hmin 0 h0
            rw [hd0] at this
            exact absurd hc this
      · have hstep : nrLoop f df eps (N + 1) x = nrLoop f df eps N (nrStep f df x) := by
          rw [nrLoop_succ, if_neg hc]
        constructor
        · intro hall
          rw [hstep, (ih (nrStep f df x)).1 ?_]
          · exact (nrSeq_shift f df x N).symm
          · intro k hk
            have := hall (k + 1) (Nat.succ_lt_succ hk)
            rw [nrSeq_shift f df x k, nrSeq_shift f df x (k + 1)] at this
            exact this
        · intro k0 hk0 hconv hmin
          rcases Nat.eq_zero_or_pos k0 with h0 | h0
          · subst h0
            rw [hd0] at hconv
            exact absurd hconv hc
          · obtain ⟨k1, rfl⟩ : ∃ k1, k0 = k1 + 1 :=
              ⟨k0 - 1, by omega⟩
            rw [nrSeq_shift f df x k1, nrSeq_shift f df x (k1 + 1)] at hconv
            have hmin' : ∀ j, j < k1 →
                ¬ |nrSeq f df (nrStep f df x) (j + 1) -
                    nrSeq f df (nrStep f df x) j| < eps := by
              intro j hj
              have := hmin (j + 1) (by omega)
              rw [nrSeq_shift f df x j, nrSeq_shift f df x (j + 1)] at this
              exact this
            rw [hstep, (ih (nrStep f df x)).2 k1 (by omega) hconv hmin']
            exact (nrSeq_shift f df x (k1 + 1)).symm

/-- C2: `newton_raphson` computes the Newton iterate sequence
`x_{k+1} = x_k - f(x_k)/df(x_k)`; it returns the first `x_{k+1}` whose step
`|x_{k+1} - x_k|` is below `epsilon`, and if no step within the `N`
iterations converges it returns the last computed iterate `x_N` without
signalling failure. -/
theorem newton_raphson_spec (f df : ℝ → ℝ) (x eps : ℝ) (N : ℕ) :
    ((∀ k, k < N → ¬ |nrSeq f df x (k + 1) - nrSeq f df x k| < eps) →
        newton_raphson x f df eps N = nrSeq f df x N) ∧
      (∀ k0, k0 < N → |nrSeq f df x (k0 + 1) - nrSeq f df x k0| < eps →
        (∀ j, j < k0 → ¬ |nrSeq f df x (j + 1) - nrSeq f df x j| < eps) →
        newton_raphson x f df eps N = nrSeq f df x (k0 + 1)) :=
  nrLoop_spec f df eps N x

/-- Witness for C2: with `f = id`, `df = 1`, `x0 = 5`, `eps = 1`, `N = 1`
the single Newton step jumps from 5 to 0, distance 5, so the loop does not
converge and returns the last iterate. -/
theorem newton_raphson_spec_witness :
    newton_raphson 5 (fun x => x) (fun _ => 1) 1 1 =
      nrSeq (fun x => x) (fun _ => 1) 5 1 := by
  apply (newton_raphson_spec (fun x => x) (fun _ => 1) 5 1 1).1
  intro k hk
  interval_cases k
  simp only [nrSeq, nrStep]
  norm_num

/-! ## Theorems for angle normalisation (claims C4 and C9) -/

theorem nat_ceil_sub_one_succ_le {x : ℝ} (hx : 0 < x) :
    Nat.ceil (x - 1) + 1 ≤ Nat.ceil x := by
  rcases le_or_lt x 1 with h1 | h1
  · rw [Nat.ceil_eq_zero.mpr (by linarith : x - 1 ≤ 0)]
    have := Nat.ceil_pos.mpr hx
    omega
  · have h2 := Nat.ceil_add_one (by linarith : (0:ℝ) ≤ x - 1)
    rw [show x - 1 + 1 = x by ring] at h2
    rw [h2]

theorem clipDown_unfold (max length angle : ℝ) :
    clipDown max length angle =
      if 0 < length ∧ max < angle then clipDown max length (angle - length)
      else angle := by
  rw [clipDown]
  by_cases hc : 0 < length ∧ max < angle
  · rw [dif_pos hc, if_pos hc]
  · rw [dif_neg hc, if_neg hc]

theorem clipUp_unfold (min length angle : ℝ) :
    clipUp min length angle =
      if 0 < length ∧ angle < min then clipUp min length (angle + length)
      else angle := by
  rw [clipUp]
  by_cases hc : 0 < length ∧ angle < min
  · rw [dif_pos hc, if_pos hc]
  · rw [dif_neg hc, if_neg hc]

theorem clipDownSteps_unfold (max length angle : ℝ) :
    clipDownSteps max length angle =
      if 0 < length ∧ max < angle then clipDownSteps max length (angle - length) + 1
      else 0 := by
  rw [clipDownSteps]
  by_cases hc : 0 < length ∧ max < angle
  · rw [dif_pos hc, if_pos hc]
  · rw [dif_neg hc, if_neg hc]

theorem clipUpSteps_unfold (min length angle : ℝ) :
    clipUpSteps min length angle =
      if 0 < length ∧ angle < min then clipUpSteps min length (angle + length) + 1
      else 0 := by
  rw [clipUpSteps]
  by_cases hc : 0 < length ∧ angle < min
  · rw [dif_pos hc, if_pos hc]
  · rw [dif_neg hc, if_neg hc]

theorem clipDown_of_le (max length angle : ℝ) (h : angle ≤ max) :
    clipDown max length angle = angle := by
  rw [clipDown_unfold, if_neg (fun hc => absurd hc.2 (not_lt.mpr h))]

theorem clipUp_of_ge (min length angle : ℝ) (h : min ≤ angle) :
    clipUp min length angle = angle := by
  rw [clipUp_unfold, if_neg (fun hc => absurd hc.2 (not_lt.mpr h))]

theorem clipDown_le_max (max length : ℝ) (hl : 0 < length) (angle : ℝ) :
    clipDown max length angle ≤ max := by
  refine clipDown.induct max length (fun a => clipDown max length a ≤ max) ?_ ?_ angle
  · intro x hx ih
    rw [clipDown_unfold, if_pos hx]
    exact ih
  · intro x hx
    rw [clipDown_unfold, if_neg hx]
    push_neg at hx
    exact hx hl

theorem clipUp_ge_min (min length : ℝ) (hl : 0 < length) (angle : ℝ) :
    min ≤ clipUp min length angle := by
  refine clipUp.induct min length (fun a => min ≤ clipUp min length a) ?_ ?_ angle
  · intro x hx ih
    rw [clipUp_unfold, if_pos hx]
    exact ih
  · intro x hx
    rw [clipUp_unfold, if_neg hx]
    push_neg at hx
    exact hx hl

theorem clipDown_gt (max length : ℝ) (hl : 0 < length) (angle : ℝ) :
    max < angle → max - length < clipDown max length angle := by
  refine clipDown.induct max length
    (fun a => max < a → max - length < clipDown max length a) ?_ ?_ angle
  · intro x hx ih hmx
    rw [clipDown_unfold, if_pos hx]
    by_cases h2 : max < x - length
    · exact ih h2
    · rw [clipDown_of_le max length _ (not_lt.mp h2)]
      linarith
  · intro x hx hmx
    exact absurd ⟨hl, hmx⟩ hx

theorem clipUp_lt (min length : ℝ) (hl : 0 < length) (angle : ℝ) :
    angle < min → clipUp min length angle < min + length := by
  refine clipUp.induct min length
    (fun a => a < min → clipUp min length a < min + length) ?_ ?_ angle
  · intro x hx ih hmx
    rw [clipUp_unfold, if_pos hx]
    by_cases h2 : x + length < min
    · exact ih h2
    · rw [clipUp_of_ge min length _ (not_lt.mp h2)]
      linarith
  · intro x hx hmx
    exact absurd ⟨hl, hmx⟩ hx

theorem clipDown_steps_eq (max length angle : ℝ) :
    clipDown max length angle =
      angle - (clipDownSteps max length angle : ℝ) * length := by
  refine clipDown.induct max length
    (fun a => clipDown max length a = a - (clipDownSteps max length a : ℝ) * length)
    ?_ ?_ angle
  · intro x hx ih
    rw [clipDown_unfold, if_pos hx, clipDownSteps_unfold, if_pos hx, ih]
    push_cast
    ring
  · intro x hx
    rw [clipDown_unfold, if_neg hx, clipDownSteps_unfold, if_neg hx]
    push_cast
    ring

theorem clipUp_steps_eq (min length angle : ℝ) :
    clipUp min length angle =
      angle + (clipUpSteps min length angle : ℝ) * length := by
  refine clipUp.induct min length
    (fun a => clipUp min length a = a + (clipUpSteps min length a : ℝ) * length)
    ?_ ?_ angle
  · intro x hx ih
    rw [clipUp_unfold, if_pos hx, clipUpSteps_unfold, if_pos hx, ih]
    push_cast
    ring
  · intro x hx
    rw [clipUp_unfold, if_neg hx, clipUpSteps_unfold, if_neg hx]
    push_cast
    ring

theorem clipDownSteps_le (max length : ℝ) (hl : 0 < length) (angle : ℝ) :
    clipDownSteps max length angle ≤ Nat.ceil ((angle - max) / length) := by
  refine clipDownSteps.induct max length
    (fun a => clipDownSteps max length a ≤ Nat.ceil ((a - max) / length)) ?_ ?_ angle
  · intro x hx ih
    rw [clipDownSteps_unfold, if_pos hx]
    have hpos : (0:ℝ) < (x - max) / length := div_pos (by linarith [hx.2]) hl
    have hrw : (x - length - max) / length = (x - max) / length - 1 := by
      rw [show x - length - max = x - max - length by ring, sub_div,
        div_self (ne_of_gt hl)]
    calc clipDownSteps max length (x - length) + 1
        ≤ Nat.ceil ((x - length - max) / length) + 1 := Nat.add_le_add_right ih 1
      _ = Nat.ceil ((x - max) / length - 1) + 1 := by rw [hrw]
      _ ≤ Nat.ceil ((x - max) / length) := nat_ceil_sub_one_succ_le hpos
  · intro x hx
    rw [clipDownSteps_unfold, if_neg hx]
    exact Nat.zero_le _

theorem clipUpSteps_le (min length : ℝ) (hl : 0 < length) (angle : ℝ) :
    clipUpSteps min length angle ≤ Nat.ceil ((min - angle) / length) := by
  refine clipUpSteps.induct min length
    (fun a => clipUpSteps min length a ≤ Nat.ceil ((min - a) / length)) ?_ ?_ angle
  · intro x hx ih
    rw [clipUpSteps_unfold, if_pos hx]
    have hpos : (0:ℝ) < (min - x) / length := div_pos (by linarith [hx.2]) hl
    have hrw : (min - (x + length)) / length = (min - x) / length - 1 := by
      rw [show min - (x + length) = min - x - length by ring, sub_div,
        div_self (ne_of_gt hl)]
    calc clipUpSteps min length (x + length) + 1
        ≤ Nat.ceil ((min - (x + length)) / length) + 1 := Nat.add_le_add_right ih 1
      _ = Nat.ceil ((min - x) / length - 1) + 1 := by rw [hrw]
      _ ≤ Nat.ceil ((min - x) / length) := nat_ceil_sub_one_succ_le hpos
  · intro x hx
    rw [clipUpSteps_unfold, if_neg hx]
    exact Nat.zero_le _

theorem clipUpSteps_of_ge (min length angle : ℝ) (h : min ≤ angle) :
    clipUpSteps min length angle = 0 := by
  rw [clipUpSteps_unfold, if_neg (fun hc => absurd hc.2 (not_lt.mpr h))]

/-- C4 counterexample: the claimed half-open convention fails on the code.
An input equal to `max` is returned unchanged (`clip_angle(2,0,2) = 2`,
which does not lie in `[0,2)`), and an input congruent to `max` is mapped
to `max`, not to `min` (`clip_angle(4,0,2) = 2 ≠ 0`). -/
theorem clip_angle_at_max_counterexample :
    clip_angle 2 0 2 = 2 ∧ ¬ clip_angle 2 0 2 < 2 ∧
      clip_angle 4 0 2 = 2 ∧ clip_angle 4 0 2 ≠ 0 := by
  have h1 : clip_angle 2 0 2 = 2 := by
    unfold clip_angle
    rw [clipDown_of_le _ _ _ (by norm_num), clipUp_of_ge _ _ _ (by norm_num)]
  have h2 : clip_angle 4 0 2 = 2 := by
    unfold clip_angle
    rw [clipDown_unfold, if_pos (by norm_num)]
    norm_num
    rw [clipDown_of_le _ _ _ (by norm_num), clipUp_of_ge _ _ _ (by norm_num)]
  refine ⟨h1, by rw [h1]; norm_num, h2, by rw [h2]; norm_num⟩

/-- C4 (amended): for `min < max` the result of `clip_angle` differs from
the input by an integer multiple of `max - min` and lies in the CLOSED
range `[min, max]`; the upper endpoint is attained, e.g. the input `max`
itself is returned unchanged rather than being mapped to `min`. -/
theorem clip_angle_spec (angle min max : ℝ) (h : min < max) :
    min ≤ clip_angle angle min max ∧ clip_angle angle min max ≤ max ∧
      (∃ n : ℤ, clip_angle angle min max = angle + n * (max - min)) ∧
      clip_angle max min max = max := by
  have hl : 0 < max - min := by linarith
  have hd := clipDown_le_max max (max - min) hl angle
  constructor
  · exact clipUp_ge_min min (max - min) hl _
  constructor
  · show clipUp min (max - min) (clipDown max (max - min) angle) ≤ max
    by_cases h2 : clipDown max (max - min) angle < min
    · have := clipUp_lt min (max - min) hl _ h2
      linarith
    · rw [clipUp_of_ge _ _ _ (not_lt.mp h2)]
      exact hd
  constructor
  · refine ⟨(clipUpSteps min (max - min) (clipDown max (max - min) angle) : ℤ) -
      (clipDownSteps max (max - min) angle : ℤ), ?_⟩
    unfold clip_angle
    rw [clipUp_steps_eq, clipDown_steps_eq]
    push_cast
    ring
  · unfold clip_angle
    rw [clipDown_of_le _ _ _ le_rfl, clipUp_of_ge _ _ _ (le_of_lt h)]

/-- Witness for C4: instantiated at `angle = 5`, range `[0, 2)`. -/
theorem clip_angle_spec_witness :
    (0:ℝ) < 2 ∧
      (0 ≤ clip_angle 5 0 2 ∧ clip_angle 5 0 2 ≤ 2 ∧
        (∃ n : ℤ, clip_angle 5 0 2 = 5 + n * (2 - 0)) ∧
        clip_angle 2 0 2 = 2) :=
  ⟨by norm_num, clip_angle_spec 5 0 2 (by norm_num)⟩

/-- C9: `clip_angle` terminates on every input once `min < max` (it is a
total function of its well-founded recursion), and the number of
subtractions plus additions it performs is bounded by the number of
multiples of the range width `max - min` separating the input from the
target range; moreover the returned angle is exactly the input shifted by
the counted multiples of the width. -/
theorem clip_angle_steps_spec (angle min max : ℝ) (h : min < max) :
    clipSteps angle min max ≤
      Nat.ceil ((angle - max) / (max - min)) +
        Nat.ceil ((min - angle) / (max - min)) ∧
      clip_angle angle min max =
        angle - (clipDownSteps max (max - min) angle : ℝ) * (max - min) +
          (clipUpSteps min (max - min) (clipDown max (max - min) angle) : ℝ) *
            (max - min) := by
  have hl : 0 < max - min := by linarith
  constructor
  · unfold clipSteps
    by_cases h2 : max < angle
    · have hgt := clipDown_gt max (max - min) hl angle h2
      have hz : clipUpSteps min (max - min) (clipDown max (max - min) angle) = 0 :=
        clipUpSteps_of_ge _ _ _ (by linarith)
      rw [hz]
      have := clipDownSteps_le max (max - min) hl angle
      omega
    · have hdz : clipDownSteps max (max - min) angle = 0 := by
        rw [clipDownSteps_unfold, if_neg (fun hc => absurd hc.2 h2)]
      rw [hdz, clipDown_of_le _ _ _ (not_lt.mp h2)]
      have := clipUpSteps_le min (max - min) hl angle
      omega
  · unfold clip_angle
    rw [clipUp_steps_eq, clipDown_steps_eq]

/-- Witness for C9: instantiated at `angle = 5`, range `[0, 2)`. -/
theorem clip_angle_steps_spec_witness :
    (0:ℝ) < 2 ∧
      (clipSteps 5 0 2 ≤
          Nat.ceil (((5:ℝ) - 2) / (2 - 0)) + Nat.ceil (((0:ℝ) - 5) / (2 - 0)) ∧
        clip_angle 5 0 2 =
          5 - (clipDownSteps 2 (2 - 0) 5 : ℝ) * (2 - 0) +
            (clipUpSteps 0 (2 - 0) (clipDown 2 (2 - 0) 5) : ℝ) * (2 - 0)) :=
  ⟨by norm_num, clip_angle_steps_spec 5 0 2 (by norm_num)⟩

/-! ## Theorems for the eccentric anomaly seed (claim C1) -/

/-- C1 counterexample: at `M = 0`, `e = 1/5`, `k = 17/20` the seed computed
by `get_eccentric_anomaly` is `copysign(k*e, sin 0) = k*e = 17/100`, not
the value `0 + sign(sin 0)*k*e = 0` asserted by the claim: `copysign`
treats a zero second argument as positive, so the seed at `M = 0` is not
`0` and convergence is not forced by a zero criterion. -/
theorem ecc_seed_counterexample :
    eccSeed 0 (1/5) (17/20) ≠ 0 + Real.sign (Real.sin 0) * ((17/20) * (1/5)) := by
  rw [eccSeed, copysign, Real.sin_zero, Real.sign_zero, if_pos le_rfl]
  norm_num

/-- C1 (amended): `get_eccentric_anomaly` seeds the root-finder with
`E0 = M + copysign(k*e, sin M)` and passes convergence criterion
`2*tolerance*E0` to it; when `sin M ≠ 0` (and `k*e ≥ 0`) this seed equals
`M + sign(sin M)*k*e` as the claim states, but at `M = 0` the seed is
`k*e`, not `0`. -/
theorem get_eccentric_anomaly_spec (M e tol k : ℝ) :
    get_eccentric_anomaly M e tol k =
        newton_raphson (eccSeed M e k) (fun x => x - e * Real.sin x - M)
          (fun x => 1 - e * Real.cos x) (2 * tol * eccSeed M e k) 50 ∧
      (0 ≤ k * e → Real.sin M ≠ 0 →
        eccSeed M e k = M + Real.sign (Real.sin M) * (k * e)) ∧
      (0 ≤ k * e → eccSeed 0 e k = k * e) := by
  refine ⟨rfl, ?_, ?_⟩
  · intro hke hsin
    rw [eccSeed, copysign]
    rcases lt_or_gt_of_ne hsin with hneg | hpos
    · rw [if_neg (not_le.mpr hneg), Real.sign_of_neg hneg, abs_of_nonneg hke]
      ring
    · rw [if_pos (le_of_lt hpos), Real.sign_of_pos hpos, abs_of_nonneg hke]
      ring
  · intro hke
    rw [eccSeed, copysign, Real.sin_zero, if_pos le_rfl, abs_of_nonneg hke]
    ring

/-- Witness for the amended C1: at `M = pi/2`, `e = 1/5`, `k = 17/20` the
seed agrees with the sign formula. -/
theorem get_eccentric_anomaly_spec_witness :
    (0:ℝ) ≤ 17/20 * (1/5) ∧ Real.sin (π/2) ≠ 0 ∧
      eccSeed (π/2) (1/5) (17/20) =
        π/2 + Real.sign (Real.sin (π/2)) * (17/20 * (1/5)) :=
  ⟨by norm_num, by rw [Real.sin_pi_div_two]; norm_num,
    (get_eccentric_anomaly_spec (π/2) (1/5) 1 (17/20)).2.1 (by norm_num)
      (by rw [Real.sin_pi_div_two]; norm_num)⟩

/-! ## Theorems for the true anomaly (claim C5) -/

/-- C5: for eccentricity `e ∈ [0,1)` and eccentric anomaly `E`,
`get_true_anomaly` returns `2*atan(sqrt((1+e)/(1-e))*tan(E/2))` when
`E < pi`, and when `E ≥ pi` it returns `2*pi` minus that upper-hemisphere
formula applied to the reflected anomaly `2*pi - E`. -/
theorem get_true_anomaly_spec (e : ℝ) (he0 : 0 ≤ e) (he1 : e < 1) (E : ℝ) :
    (E < π → get_true_anomaly E e =
        2 * Real.arctan (Real.sqrt ((1 + e) / (1 - e)) * Real.tan (E / 2))) ∧
      (π ≤ E → get_true_anomaly E e =
        2 * π - 2 * Real.arctan (Real.sqrt ((1 + e) / (1 - e)) *
          Real.tan ((2 * π - E) / 2))) := by
  constructor
  · intro hE
    rw [get_true_anomaly, if_pos hE, show (0.5 : ℝ) * E = E / 2 by ring]
  · intro hE
    rw [get_true_anomaly, if_neg (not_lt.mpr hE),
      show (0.5 : ℝ) * (2 * π - E) = (2 * π - E) / 2 by ring]

/-- Witness for C5: instantiated at `e = 0`, `E = 0`. -/
theorem get_true_anomaly_spec_witness :
    (0:ℝ) ≤ 0 ∧ (0:ℝ) < 1 ∧
      (((0:ℝ) < π → get_true_anomaly 0 0 =
          2 * Real.arctan (Real.sqrt ((1 + 0) / (1 - 0)) * Real.tan (0 / 2))) ∧
        (π ≤ (0:ℝ) → get_true_anomaly 0 0 =
          2 * π - 2 * Real.arctan (Real.sqrt ((1 + 0) / (1 - 0)) *
            Real.tan ((2 * π - 0) / 2)))) :=
  ⟨le_rfl, by norm_num, get_true_anomaly_spec 0 le_rfl (by norm_num) 0⟩

/-! ## Theorems for surface irradiance (claim C6) -/

/-- C6: `Solar.surface_irradience` equals the zero-clamped product of the
zenith-angle cosine with the beam irradience at the instantaneous
distance, and consequently is nonnegative for every input. -/
theorem surface_irradience_spec (s : Solar) (true_longitude latitude T : ℝ) :
    s.surface_irradience true_longitude latitude T =
        max 0 (cos_zenith_angle s.planet.obliquity true_longitude latitude T *
          s.beam_irradience (s.planet.instantaneous_distance true_longitude)) ∧
      0 ≤ s.surface_irradience true_longitude latitude T :=
  ⟨rfl, le_max_left 0 _⟩

/-! ## Theorems for the declination bound (claim C8) -/

/-- C8: for obliquity in `[0, pi/2]`, `|sin_declination| ≤ sin(obliquity)`
for every true longitude, with equality at the solstices `pi/2` and
`3*pi/2`; hence the radicand `1 - sin_decl*sin_decl` of the square root
taken for `cos_decl` inside `cos_zenith_angle` is nonnegative, so that
root is always real. -/
theorem sin_declination_bounds (obliquity : ℝ) (h0 : 0 ≤ obliquity)
    (h1 : obliquity ≤ π / 2) (tl : ℝ) :
    |sin_declination obliquity tl| ≤ Real.sin obliquity ∧
      |sin_declination obliquity (π / 2)| = Real.sin obliquity ∧
      |sin_declination obliquity (3 * π / 2)| = Real.sin obliquity ∧
      0 ≤ 1 - sin_declination obliquity tl * sin_declination obliquity tl := by
  have hpi : obliquity ≤ π := h1.trans (by linarith [Real.pi_pos])
  have hs : 0 ≤ Real.sin obliquity := Real.sin_nonneg_of_nonneg_of_le_pi h0 hpi
  have habs : |Real.sin obliquity| = Real.sin obliquity := abs_of_nonneg hs
  refine ⟨?_, ?_, ?_, ?_⟩
  · rw [sin_declination, abs_mul, habs]
    calc Real.sin obliquity * |Real.sin tl|
        ≤ Real.sin obliquity * 1 :=
          mul_le_mul_of_nonneg_left (Real.abs_sin_le_one tl) hs
      _ = Real.sin obliquity := mul_one _
  · rw [sin_declination, Real.sin_pi_div_two, mul_one, habs]
  · have h32 : Real.sin (3 * π / 2) = -1 := by
      rw [show (3:ℝ) * π / 2 = π / 2 + π by ring, Real.sin_add_pi,
        Real.sin_pi_div_two]
    rw [sin_declination, h32, mul_neg_one, abs_neg, habs]
  · have ha : |sin_declination obliquity tl| ≤ 1 := by
      rw [sin_declination, abs_mul]
      calc |Real.sin obliquity| * |Real.sin tl|
          ≤ 1 * 1 :=
            mul_le_mul (Real.abs_sin_le_one obliquity) (Real.abs_sin_le_one tl)
              (abs_nonneg _) zero_le_one
        _ = 1 := one_mul 1
    have := abs_le_one_iff_mul_self_le_one.mp ha
    linarith

/-- Witness for C8: instantiated at obliquity `0`, true longitude `0`. -/
theorem sin_declination_bounds_witness :
    (0:ℝ) ≤ 0 ∧ (0:ℝ) ≤ π / 2 ∧
      (|sin_declination 0 0| ≤ Real.sin 0 ∧
        |sin_declination 0 (π / 2)| = Real.sin 0 ∧
        |sin_declination 0 (3 * π / 2)| = Real.sin 0 ∧
        0 ≤ 1 - sin_declination 0 0 * sin_declination 0 0) :=
  ⟨le_rfl, by positivity, sin_declination_bounds 0 le_rfl (by positivity) 0⟩

/-! ## Theorems for sunrise and sunset hour angle (claims C3 and C10) -/

/-- The product the code computes through
`sin_decl / sqrt(1 - sin_decl*sin_decl)` is the literal
`tan(declination) * tan(latitude)` of the specification. -/
theorem declProd_eq_sunriseProd (obliquity tl lat : ℝ) :
    declProd obliquity tl lat = sunriseProd obliquity tl lat := by
  simp only [declProd, sunriseProd, Real.tan_arcsin, pow_two]

/-- C3: with `prod = tan(declination)*tan(latitude)`,
`Solar.hour_angle_sunrise_sunset` returns `acos(-prod)` for sunset and its
negation for sunrise when `|prod| < 1`; when `|prod| ≥ 1` it returns `pi`
if `latitude > 0`, `prod > 1` and `0 < true_longitude < pi`, returns `pi`
if `latitude < 0`, `prod > 1` and `pi < true_longitude < 2*pi`, and
returns `0` in every other out-of-domain combination. -/
theorem hour_angle_sunrise_sunset_spec (s : Solar) (tl lat : ℝ) (sunset : Bool) :
    (|declProd s.planet.obliquity tl lat| < 1 →
        s.hour_angle_sunrise_sunset tl lat true =
            Real.arccos (-declProd s.planet.obliquity tl lat) ∧
          s.hour_angle_sunrise_sunset tl lat false =
            -Real.arccos (-declProd s.planet.obliquity tl lat)) ∧
      (1 ≤ |declProd s.planet.obliquity tl lat| →
        s.hour_angle_sunrise_sunset tl lat sunset =
          if 0 < lat ∧ 1 < declProd s.planet.obliquity tl lat ∧
              0 < tl ∧ tl < π then π
          else if lat < 0 ∧ 1 < declProd s.planet.obliquity tl lat ∧
              π < tl ∧ tl < 2 * π then π
          else 0) := by
  have hb := declProd_eq_sunriseProd s.planet.obliquity tl lat
  constructor
  · intro h
    rw [hb] at h
    constructor
    · simp only [Solar.hour_angle_sunrise_sunset, hb]
      rw [if_pos h]
      simp
    · simp only [Solar.hour_angle_sunrise_sunset, hb]
      rw [if_pos h]
      simp
  · intro h
    rw [hb] at h
    simp only [Solar.hour_angle_sunrise_sunset, hb]
    rw [if_neg (not_lt.mpr h)]

/-- Witness for C3: on `testSolar` (zero obliquity) at the equator the
product is `0`, inside the ordinary `acos` branch. -/
theorem hour_angle_sunrise_sunset_spec_witness :
    |declProd testSolar.planet.obliquity 0 0| < 1 ∧
      (Solar.hour_angle_sunrise_sunset testSolar 0 0 true =
          Real.arccos (-declProd testSolar.planet.obliquity 0 0) ∧
        Solar.hour_angle_sunrise_sunset testSolar 0 0 false =
          -Real.arccos (-declProd testSolar.planet.obliquity 0 0)) := by
  have hp : |declProd testSolar.planet.obliquity 0 0| < 1 := by
    have hob : testSolar.planet.obliquity = 0 := rfl
    rw [hob, declProd, sin_declination]
    simp
  exact ⟨hp, (hour_angle_sunrise_sunset_spec testSolar 0 0 true).1 hp⟩

/-- C10: in the polar-day / polar-night condition `|prod| ≥ 1` the result
of `Solar.hour_angle_sunrise_sunset` does not depend on the `sunset` flag;
the sunrise negation is applied only in the `|prod| < 1` branch. -/
theorem polar_branch_ignores_sunset (s : Solar) (tl lat : ℝ)
    (h : ¬ |sunriseProd s.planet.obliquity tl lat| < 1) :
    s.hour_angle_sunrise_sunset tl lat true =
      s.hour_angle_sunrise_sunset tl lat false := by
  simp only [Solar.hour_angle_sunrise_sunset]
  rw [if_neg h, if_neg h]

/-- Witness for C10: on `polarSolar` (obliquity `pi/2`) at true longitude
and latitude `pi/4` the product is exactly `1`, in the polar branch. -/
theorem polar_branch_ignores_sunset_witness :
    ¬ |sunriseProd polarSolar.planet.obliquity (π/4) (π/4)| < 1 ∧
      Solar.hour_angle_sunrise_sunset polarSolar (π/4) (π/4) true =
        Solar.hour_angle_sunrise_sunset polarSolar (π/4) (π/4) false := by
  have hs2 : Real.sqrt 2 * Real.sqrt 2 = 2 :=
    Real.mul_self_sqrt (by norm_num)
  have hprod : sunriseProd (π/2) (π/4) (π/4) = 1 := by
    simp only [sunriseProd, sin_declination, Real.sin_pi_div_two,
      Real.sin_pi_div_four, one_mul, Real.tan_pi_div_four, mul_one]
    rw [show (1:ℝ) - Real.sqrt 2 / 2 * (Real.sqrt 2 / 2) = 2⁻¹ by
      rw [div_mul_div_comm, hs2]; norm_num]
    rw [Real.sqrt_inv, div_eq_mul_inv, inv_inv, div_mul_eq_mul_div, hs2]
    norm_num
  have hob : polarSolar.planet.obliquity = π / 2 := rfl
  have hnot : ¬ |sunriseProd polarSolar.planet.obliquity (π/4) (π/4)| < 1 := by
    rw [hob, hprod]
    norm_num
  exact ⟨hnot, polar_branch_ignores_sunset polarSolar (π/4) (π/4) hnot⟩
